import Mathlib

/-
Shallow embedding of `src/mars_rover/rovercontroller.py`.

The Python module defines a `RoverController` holding a pair of bounding-box
vertices and a dict from rover ids to `Rover` objects, each a mutable record
of a position (an integer triple) and a heading (a pair of float angles).
Operations (`add_rover`, `get_rover`, `move`, `turn`) mutate the dict in
place and signal failures by raising exceptions; the spec names the failure
kinds `DuplicateId`, `RoverNotFound`, `PositionOccupied`, `OutOfBounds`,
`NonOrthogonalTurn`, `InvalidDistance` and `InvalidBoundingBox`.

Modelling choices, faithful to the source:
* The rover dict is an association list `List (Nat × Rover)` in insertion
  order (Python dicts preserve insertion order); insertion appends, and the
  in-place mutation of a rover object is an order-preserving map over the
  entries with the matching key.
* Every operation returns the resulting state together with an optional
  error.  Python exceptions propagate after any in-place mutations already
  performed, so a failing call returns the (possibly partially updated)
  state it left behind; for `add_rover` and `turn` that state is always the
  unchanged input state.
* Angles.  The code computes `angle % (math.pi/2) == 0.0` and
  `int(math.sin(zenith)*math.cos(azimuth))` (and similar) on floats.  We
  idealise float arithmetic as exact real arithmetic and restrict angles to
  the subring of reals of the form `q*(pi/2) + r` with `q r : ℚ`.  Because
  `pi` is irrational, this representation is unique, so the pair `(q, r)`
  is a faithful name for the real number, and on this subring the two
  operations the code needs are decidable:
  - `a % (pi/2) == 0.0` holds exactly when `a` is an integer multiple of
    `pi/2`, i.e. `r = 0` and `q` is an integer;
  - `sin a = 1` iff `a = pi/2 + 2*k*pi` iff `r = 0` and `q` is an integer
    congruent to `1` mod `4`, and similarly for the other `±1` values of
    `sin` and `cos`; in every other case `|sin a| < 1` (resp. `|cos a| < 1`),
    so any product of the two factors has absolute value strictly below `1`
    and truncates toward zero to `0`.  Truncation of `sin*cos` is therefore
    nonzero exactly when both factors are `±1`, in which case it equals the
    product of their signs.
-/

/-- Failure kinds of the controller API, as named by the specification
(section 7); the Python code raises bare `Exception`s with distinguishing
messages at exactly these spots. -/
inductive Err where
  | duplicateId
  | roverNotFound
  | positionOccupied
  | outOfBounds
  | nonOrthogonalTurn
  | invalidDistance
  | invalidBoundingBox
deriving DecidableEq, Repr

/-- Exact-real angle `q*(pi/2) + r` with `q r : ℚ`.  Since `pi` is
irrational the representation is unique, so equality of representations is
equality of the denoted reals. -/
structure Angle where
  q : ℚ
  r : ℚ
deriving DecidableEq, Repr

/-- Addition of angles (`az += azimuth` resp. `z += zenith` in `turn`). -/
def Angle.add (a b : Angle) : Angle := ⟨a.q + b.q, a.r + b.r⟩

/-- The test `angle % (math.pi/2) == 0.0` of `turn`, idealised over exact
reals: `q*(pi/2) + r` is an integer multiple of `pi/2` iff `r = 0` and `q`
is an integer (denominator 1). -/
def Angle.isMultipleOfHalfPi (a : Angle) : Bool :=
  decide (a.r = 0 ∧ a.q.den = 1)

/-- Exact value of `sin` where it is `±1`, else `none`.  For
`a = q*(pi/2) + r`, `sin a = 1` iff `r = 0` and `q ≡ 1 [MOD 4]`, and
`sin a = -1` iff `r = 0` and `q ≡ 3 [MOD 4]`; otherwise `|sin a| < 1`. -/
def Angle.sinPM1 (a : Angle) : Option Int :=
  if a.r = 0 ∧ a.q.den = 1 then
    if a.q.num % 4 = 1 then some 1
    else if a.q.num % 4 = 3 then some (-1)
    else none
  else none

/-- Exact value of `cos` where it is `±1`, else `none`.  For
`a = q*(pi/2) + r`, `cos a = 1` iff `r = 0` and `q ≡ 0 [MOD 4]`, and
`cos a = -1` iff `r = 0` and `q ≡ 2 [MOD 4]`; otherwise `|cos a| < 1`. -/
def Angle.cosPM1 (a : Angle) : Option Int :=
  if a.r = 0 ∧ a.q.den = 1 then
    if a.q.num % 4 = 0 then some 1
    else if a.q.num % 4 = 2 then some (-1)
    else none
  else none

/-- Truncation toward zero of a product of two factors that each lie in
`[-1, 1]`: it is nonzero exactly when both factors are `±1`. -/
def truncUnitMul (x y : Option Int) : Int :=
  match x, y with
  | some a, some b => a * b
  | _, _ => 0

/-- The direction vector of one movement step, from `move`:
`dx = int(sin(zenith)*cos(azimuth))`, `dy = int(sin(zenith)*sin(azimuth))`,
`dz = int(cos(zenith))`, idealised over exact reals as explained above. -/
def direction (azimuth zenith : Angle) : Int × Int × Int :=
  (truncUnitMul zenith.sinPM1 azimuth.cosPM1,
   truncUnitMul zenith.sinPM1 azimuth.sinPM1,
   zenith.cosPM1.getD 0)

/-- A lattice cell `(x, y, z)`. -/
abbrev Position := Int × Int × Int

/-- A heading `(azimuth, zenith)`. -/
abbrev Heading := Angle × Angle

/-- The passive rover record of `rover.Rover`. -/
structure Rover where
  position : Position
  heading : Heading
deriving DecidableEq, Repr

/-- The controller state: the rover dict (as an association list in
insertion order) and the bounding-box vertices. -/
structure RoverController where
  rovers : List (Nat × Rover)
  vertices : Position × Position
deriving DecidableEq, Repr

/-- Dict lookup `self.rovers[rover_id]`, returning `none` when
`rover_id not in self.rovers.keys()`. -/
def lookupRover : List (Nat × Rover) → Nat → Option Rover
  | [], _ => none
  | kr :: rest, i => if kr.1 = i then some kr.2 else lookupRover rest i

/-- In-place mutation of the rover object stored under key `i`
(`r.position = ...` / `r.heading = ...` on the object returned by the
dict): an order-preserving, key-preserving update. -/
def updateRover (l : List (Nat × Rover)) (i : Nat) (rv : Rover) :
    List (Nat × Rover) :=
  l.map fun kr => if kr.1 = i then (kr.1, rv) else kr

/-- The list comprehension `[r.position for r in self.rovers.values()]`. -/
def RoverController.positions (c : RoverController) : List Position :=
  c.rovers.map fun kr => kr.2.position

/-- Method `is_empty`: `False if position in [r.position for r in
self.rovers.values()] else True`. -/
def RoverController.is_empty (c : RoverController) (p : Position) : Bool :=
  if p ∈ c.positions then false else true

/-- Method `in_grid`: on each axis the coordinate must lie between the two
vertices' coordinates, in either order. -/
def RoverController.in_grid (c : RoverController) (p : Position) : Bool :=
  if ((c.vertices.1.1 ≤ p.1 ∧ p.1 ≤ c.vertices.2.1) ∨
      (c.vertices.2.1 ≤ p.1 ∧ p.1 ≤ c.vertices.1.1)) ∧
     ((c.vertices.1.2.1 ≤ p.2.1 ∧ p.2.1 ≤ c.vertices.2.2.1) ∨
      (c.vertices.2.2.1 ≤ p.2.1 ∧ p.2.1 ≤ c.vertices.1.2.1)) ∧
     ((c.vertices.1.2.2 ≤ p.2.2 ∧ p.2.2 ≤ c.vertices.2.2.2) ∨
      (c.vertices.2.2.2 ≤ p.2.2 ∧ p.2.2 ≤ c.vertices.1.2.2)) then
    true
  else false

/-- Method `check_position`: raises `PositionOccupied` when the position is
not empty, else `OutOfBounds` when it is not in the grid (occupancy is
checked first). -/
def RoverController.check_position (c : RoverController) (p : Position) :
    Option Err :=
  if !(c.is_empty p) then some Err.positionOccupied
  else if !(c.in_grid p) then some Err.outOfBounds
  else none

/-- Method `add_rover`: first `self.check_position(position)` (raising
`PositionOccupied` / `OutOfBounds`), then the duplicate-id check; on
success the new rover is inserted (dict insertion appends). -/
def RoverController.add_rover (c : RoverController) (i : Nat) (p : Position)
    (hd : Heading) : RoverController × Option Err :=
  match c.check_position p with
  | some e => (c, some e)
  | none =>
    if (lookupRover c.rovers i).isNone then
      ({ c with rovers := c.rovers ++ [(i, ⟨p, hd⟩)] }, none)
    else (c, some Err.duplicateId)

/-- Method `get_rover`: `none` models the `RoverNotFound` exception. -/
def RoverController.get_rover (c : RoverController) (i : Nat) : Option Rover :=
  lookupRover c.rovers i

/-- Method `turn`: the orthogonality test on both deltas comes first; only
then is the rover looked up (`get_rover` raising `RoverNotFound`), and on
success the deltas are added componentwise to the heading. -/
def RoverController.turn (c : RoverController) (i : Nat)
    (azimuth zenith : Angle) : RoverController × Option Err :=
  if azimuth.isMultipleOfHalfPi && zenith.isMultipleOfHalfPi then
    match lookupRover c.rovers i with
    | none => (c, some Err.roverNotFound)
    | some r =>
      ({ c with
          rovers := updateRover c.rovers i
            ⟨r.position, (r.heading.1.add azimuth, r.heading.2.add zenith)⟩ },
       none)
  else (c, some Err.nonOrthogonalTurn)

/-- One unit step of `move` (the body of the `distance > 0` branch): look
up the rover, add the truncated direction vector to its position, validate
the candidate with `check_position`, and commit it. -/
def RoverController.move_step (c : RoverController) (i : Nat) :
    RoverController × Option Err :=
  match lookupRover c.rovers i with
  | none => (c, some Err.roverNotFound)
  | some r =>
    let d := direction r.heading.1 r.heading.2
    let p : Position :=
      (r.position.1 + d.1, r.position.2.1 + d.2.1, r.position.2.2 + d.2.2)
    match c.check_position p with
    | some e => (c, some e)
    | none => ({ c with rovers := updateRover c.rovers i ⟨p, r.heading⟩ }, none)

/-- The tail recursion `self.move(rover_id, distance - 1)` of `move`,
counted down on the remaining number of steps: each step commits before the
next is attempted, and a failing step returns the state reached so far
together with the error (no rollback of committed steps). -/
def moveLoop (i : Nat) : RoverController → Nat → RoverController × Option Err
  | c, 0 => (c, none)
  | c, Nat.succ n =>
    match c.move_step i with
    | (c', none) => moveLoop i c' n
    | (c', some e) => (c', some e)

/-- The `distance` argument of `move`: Python's `isinstance(distance, int)`
dynamic type test is modelled by a sum of an integer and a non-integer
case. -/
inductive Distance where
  | int (n : Int)
  | nonInt
deriving DecidableEq, Repr

/-- Method `move`: a non-integer distance raises `InvalidDistance` before
anything else; an integer distance `n > 0` performs `n` unit steps
(`moveLoop`); `n ≤ 0` does nothing and is not an error. -/
def RoverController.move (c : RoverController) (i : Nat) (d : Distance) :
    RoverController × Option Err :=
  match d with
  | Distance.nonInt => (c, some Err.invalidDistance)
  | Distance.int n => if 0 < n then moveLoop i c n.toNat else (c, none)

/-- Untyped Python values, as far as the structural check of
`_set_vertices` can observe them: integers, floats (payload as an exact
rational, irrelevant to the check), tuples, and anything else. -/
inductive Py where
  | intv (n : Int)
  | floatv (x : ℚ)
  | tup (elems : List Py)
  | other

/-- The test `isinstance(v, tuple) and len(v) == n`. -/
def Py.isTupleOfLen : Py → Nat → Bool
  | Py.tup l, n => l.length == n
  | _, _ => false

/-- Method `_set_vertices` (also reached from `__init__`, since
`self.vertices = vertices` goes through the `vertices` property): accepts
exactly a 2-tuple whose two elements are tuples of length 3, and raises
otherwise; the spec folds both raise sites into `InvalidBoundingBox`.  The
element types inside the 3-tuples are not examined. -/
def set_vertices_check : Py → Option Err
  | Py.tup [a, b] =>
    if a.isTupleOfLen 3 && b.isTupleOfLen 3 then none
    else some Err.invalidBoundingBox
  | _ => some Err.invalidBoundingBox

/-- Controller construction `__init__(vertices)` performs exactly the
property setter's validation on its argument. -/
def controller_init_check (v : Py) : Option Err :=
  set_vertices_check v

/-- One API call, for stating properties of operation sequences. -/
inductive Op where
  | add (i : Nat) (p : Position) (hd : Heading)
  | turn (i : Nat) (azimuth zenith : Angle)
  | move (i : Nat) (d : Distance)

/-- Apply one call to the controller, keeping the resulting state whether
or not the call failed. -/
def applyOp (c : RoverController) : Op → RoverController × Option Err
  | Op.add i p hd => c.add_rover i p hd
  | Op.turn i az z => c.turn i az z
  | Op.move i d => c.move i d

/-- Run a sequence of calls, threading the state (failures included). -/
def runOps (c : RoverController) : List Op → RoverController
  | [] => c
  | op :: ops => runOps (applyOp c op).1 ops

/-- A freshly constructed controller: no rovers, the given vertices. -/
def initController (v : Position × Position) : RoverController := ⟨[], v⟩

/-- The three state invariants of the specification (section 3): all rover
positions in the grid, distinct ids at distinct positions, unique ids. -/
def Invariant (c : RoverController) : Prop :=
  (∀ kr ∈ c.rovers, c.in_grid kr.2.position = true) ∧
  (∀ kr ∈ c.rovers, ∀ kl ∈ c.rovers, kr.1 ≠ kl.1 →
      kr.2.position ≠ kl.2.position) ∧
  (c.rovers.map Prod.fst).Nodup

/-- The driver's first rover: heading azimuth `pi/2`, zenith `pi/2`. -/
def sampleHeading : Heading := (⟨1, 0⟩, ⟨1, 0⟩)

/-- A controller mirroring the driver: box `((0,0,0),(5,5,0))`, one rover
with id `1` at `(1,2,0)` heading `(pi/2, pi/2)`. -/
def sample : RoverController :=
  ⟨[(1, ⟨(1, 2, 0), sampleHeading⟩)], ((0, 0, 0), (5, 5, 0))⟩

/-- A heading with azimuth 1 radian and zenith 1 radian (`q = 0`,
`r = 1`): not aligned to a multiple of `pi/2`, so its direction vector
truncates to `(0, 0, 0)`. -/
def offAxisHeading : Heading := (⟨0, 1⟩, ⟨0, 1⟩)

/-- A controller with one rover at `(2, 2, 0)` whose heading truncates to
the zero direction vector. -/
def offAxis : RoverController :=
  ⟨[(1, ⟨(2, 2, 0), offAxisHeading⟩)], ((0, 0, 0), (5, 5, 0))⟩

/-- A 2-tuple of two 3-tuples whose first component is a float, not an
integer: structurally accepted by `_set_vertices`. -/
def badBox : Py :=
  Py.tup [Py.tup [Py.floatv (1/2), Py.intv 0, Py.intv 0],
          Py.tup [Py.intv 5, Py.intv 5, Py.intv 5]]

/-- The angle `pi/2` (`q = 1`, `r = 0`). -/
def halfPiAngle : Angle := ⟨1, 0⟩

/-- The zero angle. -/
def zeroAngle : Angle := ⟨0, 0⟩

/-- Four successive `turn` calls with `deltaAzimuth = pi/2` and
`deltaZenith = 0`, as in the testable-properties example. -/
def turn4azimuth (c : RoverController) (i : Nat) : RoverController :=
  ((((c.turn i halfPiAngle zeroAngle).1.turn i halfPiAngle zeroAngle).1.turn
      i halfPiAngle zeroAngle).1.turn i halfPiAngle zeroAngle).1

example : direction sampleHeading.1 sampleHeading.2 = (0, 1, 0) := by decide

example : (sample.move 1 (Distance.int 1)).2 = none := by decide

example : (sample.move 1 (Distance.int 1)).1.rovers =
    [(1, ⟨(1, 3, 0), sampleHeading⟩)] := by decide

/-! Helper lemmas about the association-list dict. -/

theorem lookupRover_eq_none_iff (l : List (Nat × Rover)) (i : Nat) :
    lookupRover l i = none ↔ ∀ kr ∈ l, kr.1 ≠ i := by
  induction l with
  | nil => simp [lookupRover]
  | cons kr rest ih =>
    by_cases h : kr.1 = i <;> simp [lookupRover, h, ih]

theorem lookupRover_mem (l : List (Nat × Rover)) (i : Nat) (r : Rover)
    (h : lookupRover l i = some r) : (i, r) ∈ l := by
  induction l with
  | nil => simp [lookupRover] at h
  | cons kr rest ih =>
    by_cases hk : kr.1 = i
    · simp only [lookupRover, hk, if_pos, Option.some.injEq] at h
      subst h
      subst hk
      exact List.mem_cons_self kr rest
    · simp only [lookupRover, hk, if_neg, not_false_iff] at h
      right
      exact ih h

theorem updateRover_map_fst (l : List (Nat × Rover)) (i : Nat) (rv : Rover) :
    (updateRover l i rv).map Prod.fst = l.map Prod.fst := by
  induction l with
  | nil => rfl
  | cons kr rest ih =>
    by_cases h : kr.1 = i <;> simp [updateRover, h] at ih ⊢ <;> exact ih

theorem mem_updateRover (l : List (Nat × Rover)) (i : Nat) (rv : Rover)
    (kr : Nat × Rover) (h : kr ∈ updateRover l i rv) :
    ∃ kl ∈ l, kr = if kl.1 = i then (kl.1, rv) else kl := by
  rcases List.mem_map.mp h with ⟨kl, hkl, hkr⟩
  exact ⟨kl, hkl, hkr.symm⟩

theorem lookupRover_updateRover (l : List (Nat × Rover)) (i : Nat) (rv : Rover)
    (h : (lookupRover l i).isSome = true) :
    lookupRover (updateRover l i rv) i = some rv := by
  induction l with
  | nil => simp [lookupRover] at h
  | cons kr rest ih =>
    by_cases hk : kr.1 = i
    · simp [lookupRover, updateRover, hk]
    · simp only [lookupRover, updateRover, List.map_cons, hk, if_neg,
        not_false_iff] at h ⊢
      exact ih h

theorem is_empty_iff (c : RoverController) (p : Position) :
    c.is_empty p = true ↔ ∀ kr ∈ c.rovers, kr.2.position ≠ p := by
  simp only [RoverController.is_empty, RoverController.positions]
  by_cases h : p ∈ c.rovers.map fun kr => kr.2.position
  · simp only [h, if_true]
    rcases List.mem_map.mp h with ⟨kr, hkr, hp⟩
    constructor
    · intro hfalse
      exact absurd hfalse (by simp)
    · intro hall
      exact absurd hp (hall kr hkr)
  · simp only [h, if_false]
    constructor
    · intro _ kr hkr hp
      exact h (List.mem_map.mpr ⟨kr, hkr, hp⟩)
    · intro _
      trivial

theorem check_position_none (c : RoverController) (p : Position)
    (h : c.check_position p = none) :
    c.is_empty p = true ∧ c.in_grid p = true := by
  unfold RoverController.check_position at h
  by_cases h1 : c.is_empty p <;> by_cases h2 : c.in_grid p <;> simp_all

theorem check_position_occupied (c : RoverController) (p : Position)
    (h : c.is_empty p = false) :
    c.check_position p = some Err.positionOccupied := by
  simp [RoverController.check_position, h]

/-! Preservation of the three state invariants by every operation. -/

theorem invariant_of_rovers_eq (c : RoverController) (l : List (Nat × Rover))
    (hI : Invariant c) (h : l = c.rovers) :
    Invariant ⟨l, c.vertices⟩ := by
  subst h
  exact hI

theorem invariant_updateRover (c : RoverController) (i : Nat) (rv : Rover)
    (hI : Invariant c)
    (hpos : c.in_grid rv.position = true)
    (hdist : ∀ kr ∈ c.rovers, kr.1 ≠ i → kr.2.position ≠ rv.position) :
    Invariant ⟨updateRover c.rovers i rv, c.vertices⟩ := by
  obtain ⟨hgrid, hsep, hkeys⟩ := hI
  refine ⟨?_, ?_, ?_⟩
  · intro kr hkr
    rcases mem_updateRover _ _ _ _ hkr with ⟨kl, hkl, hkr'⟩
    by_cases hk : kl.1 = i
    · rw [hkr', if_pos hk]
      exact hpos
    · rw [hkr', if_neg hk]
      exact hgrid kl hkl
  · intro kr hkr kl hkl hne
    rcases mem_updateRover _ _ _ _ hkr with ⟨a, ha, hra⟩
    rcases mem_updateRover _ _ _ _ hkl with ⟨b, hb, hrb⟩
    have hfst_a : kr.1 = a.1 := by
      rw [hra]; by_cases h : a.1 = i <;> simp [h]
    have hfst_b : kl.1 = b.1 := by
      rw [hrb]; by_cases h : b.1 = i <;> simp [h]
    by_cases hai : a.1 = i
    · have hbi : b.1 ≠ i := by
        intro hbi
        exact hne (by rw [hfst_a, hfst_b, hai, hbi])
      rw [hra, if_pos hai, hrb, if_neg hbi]
      exact fun hpp => hdist b hb hbi (by rw [hpp])
    · by_cases hbi : b.1 = i
      · rw [hra, if_neg hai, hrb, if_pos hbi]
        exact hdist a ha hai
      · rw [hra, if_neg hai, hrb, if_neg hbi]
        exact hsep a ha b hb (by rw [← hfst_a, ← hfst_b]; exact hne)
  · rw [updateRover_map_fst]
    exact hkeys

theorem invariant_add_rover (c : RoverController) (i : Nat) (p : Position)
    (hd : Heading) (hI : Invariant c) : Invariant (c.add_rover i p hd).1 := by
  unfold RoverController.add_rover
  cases hcp : c.check_position p with
  | some e => exact hI
  | none =>
    by_cases hl : (lookupRover c.rovers i).isNone
    · obtain ⟨hemp, hgrid⟩ := check_position_none c p hcp
      have hempty := (is_empty_iff c p).mp hemp
      have habs : ∀ kr ∈ c.rovers, kr.1 ≠ i := by
        apply (lookupRover_eq_none_iff c.rovers i).mp
        cases h : lookupRover c.rovers i with
        | none => rfl
        | some r => rw [h] at hl; simp [Option.isNone] at hl
      obtain ⟨hg, hsep, hkeys⟩ := hI
      simp only [hl, if_true]
      refine ⟨?_, ?_, ?_⟩
      · intro kr hkr
        rcases List.mem_append.mp hkr with hmem | hmem
        · exact hg kr hmem
        · rcases List.mem_singleton.mp hmem with rfl
          exact hgrid
      · intro kr hkr kl hkl hne
        rcases List.mem_append.mp hkr with hmem | hmem <;>
          rcases List.mem_append.mp hkl with hmem' | hmem'
        · exact hsep kr hmem kl hmem' hne
        · rcases List.mem_singleton.mp hmem' with rfl
          exact fun hpp => hempty kr hmem hpp
        · rcases List.mem_singleton.mp hmem with rfl
          exact fun hpp => hempty kl hmem' hpp.symm
        · rcases List.mem_singleton.mp hmem with rfl
          rcases List.mem_singleton.mp hmem' with rfl
          exact absurd rfl hne
      · rw [List.map_append]
        apply List.Nodup.append hkeys (List.nodup_singleton i)
        intro a ha hb
        rcases List.mem_map.mp ha with ⟨kr, hkr, rfl⟩
        rcases List.mem_singleton.mp hb with rfl
        exact habs kr hkr rfl
    · simp only [hl, if_false]
      exact hI

theorem invariant_turn (c : RoverController) (i : Nat) (az z : Angle)
    (hI : Invariant c) : Invariant (c.turn i az z).1 := by
  unfold RoverController.turn
  by_cases horth : az.isMultipleOfHalfPi && z.isMultipleOfHalfPi
  · simp only [horth, if_true]
    cases hlook : lookupRover c.rovers i with
    | none => exact hI
    | some r =>
      have hmem := lookupRover_mem c.rovers i r hlook
      apply invariant_updateRover c i _ hI
      · exact hI.1 (i, r) hmem
      · intro kr hkr hk
        exact hI.2.1 kr hkr (i, r) hmem hk
  · simp only [horth, if_false]
    exact hI

theorem invariant_move_step (c : RoverController) (i : Nat)
    (hI : Invariant c) : Invariant (c.move_step i).1 := by
  unfold RoverController.move_step
  cases hlook : lookupRover c.rovers i with
  | none => exact hI
  | some r =>
    simp only
    cases hcp : c.check_position
        (r.position.1 + (direction r.heading.1 r.heading.2).1,
         r.position.2.1 + (direction r.heading.1 r.heading.2).2.1,
         r.position.2.2 + (direction r.heading.1 r.heading.2).2.2) with
    | some e => exact hI
    | none =>
      obtain ⟨hemp, hgrid⟩ := check_position_none c _ hcp
      have hempty := (is_empty_iff c _).mp hemp
      apply invariant_updateRover c i _ hI
      · exact hgrid
      · intro kr hkr _
        exact hempty kr hkr

theorem invariant_moveLoop (i : Nat) (n : Nat) (c : RoverController)
    (hI : Invariant c) : Invariant (moveLoop i c n).1 := by
  induction n generalizing c with
  | zero => exact hI
  | succ m ih =>
    have hstep := invariant_move_step c i hI
    unfold moveLoop
    cases hms : c.move_step i with
    | mk c' oe =>
      rw [hms] at hstep
      cases oe with
      | none => exact ih c' hstep
      | some e => exact hstep

theorem invariant_move (c : RoverController) (i : Nat) (d : Distance)
    (hI : Invariant c) : Invariant (c.move i d).1 := by
  unfold RoverController.move
  cases d with
  | nonInt => exact hI
  | int n =>
    by_cases hn : 0 < n
    · simp only [hn, if_true]
      exact invariant_moveLoop i n.toNat c hI
    · simp only [hn, if_false]
      exact hI

theorem invariant_applyOp (c : RoverController) (op : Op)
    (hI : Invariant c) : Invariant (applyOp c op).1 := by
  cases op with
  | add i p hd => exact invariant_add_rover c i p hd hI
  | turn i az z => exact invariant_turn c i az z hI
  | move i d => exact invariant_move c i d hI

theorem invariant_runOps (ops : List Op) (c : RoverController)
    (hI : Invariant c) : Invariant (runOps c ops) := by
  induction ops generalizing c with
  | nil => exact hI
  | cons op rest ih => exact ih (applyOp c op).1 (invariant_applyOp c op hI)

theorem invariant_initController (v : Position × Position) :
    Invariant (initController v) := by
  refine ⟨?_, ?_, ?_⟩ <;> simp [initController]

/-! Claim theorems. -/

theorem if_prop_eq_true (P : Prop) [Decidable P] :
    (if P then true else false) = true ↔ P := by
  by_cases h : P <;> simp [h]

/-- C5: for every sequence of add_rover, turn, and move operations on a
controller, after each operation (whether it succeeds or fails) all rover
positions lie within the bounding box, no two distinct rover ids map to the
same position, and rover ids are unique; a failing operation restores
(never partially applies) these invariants.  `runOps` keeps the state an
operation leaves behind whether or not it failed, so the statement covers
the state after every successful and every failing call. -/
theorem claim_C5_invariants (v : Position × Position) (ops : List Op) :
    Invariant (runOps (initController v) ops) :=
  invariant_runOps ops (initController v) (invariant_initController v)

/-- C9: `in_grid` is true exactly when each coordinate lies in the closed
interval between the two vertices' coordinates on that axis; it is
independent of vertex order, and true on the two vertices themselves. -/
theorem claim_C9_in_grid (rs : List (Nat × Rover)) (v0 v1 p : Position) :
    ((RoverController.mk rs (v0, v1)).in_grid p = true ↔
      (min v0.1 v1.1 ≤ p.1 ∧ p.1 ≤ max v0.1 v1.1 ∧
       min v0.2.1 v1.2.1 ≤ p.2.1 ∧ p.2.1 ≤ max v0.2.1 v1.2.1 ∧
       min v0.2.2 v1.2.2 ≤ p.2.2 ∧ p.2.2 ≤ max v0.2.2 v1.2.2)) ∧
    (RoverController.mk rs (v0, v1)).in_grid p
      = (RoverController.mk rs (v1, v0)).in_grid p ∧
    (RoverController.mk rs (v0, v1)).in_grid v0 = true ∧
    (RoverController.mk rs (v0, v1)).in_grid v1 = true := by
  refine ⟨?_, ?_, ?_, ?_⟩
  · rw [RoverController.in_grid, if_prop_eq_true]
    dsimp only
    omega
  · rw [Bool.eq_iff_iff]
    rw [RoverController.in_grid, if_prop_eq_true,
        RoverController.in_grid, if_prop_eq_true]
    dsimp only
    omega
  · rw [RoverController.in_grid, if_prop_eq_true]
    dsimp only
    omega
  · rw [RoverController.in_grid, if_prop_eq_true]
    dsimp only
    omega

/-- C7: `move` with a non-integer distance fails with `InvalidDistance`
and leaves the state untouched; with an integer distance that is zero or
negative it performs no movement, leaves all state unchanged, and raises
no error. -/
theorem claim_C7_distance_guard (c : RoverController) (i : Nat) :
    c.move i Distance.nonInt = (c, some Err.invalidDistance) ∧
    ∀ n : Int, n ≤ 0 → c.move i (Distance.int n) = (c, none) := by
  constructor
  · rfl
  · intro n hn
    have h : ¬ 0 < n := by omega
    simp [RoverController.move, h]

theorem claim_C7_witness :
    (sample.move 1 Distance.nonInt = (sample, some Err.invalidDistance)) ∧
    ((-3 : Int) ≤ 0 ∧ sample.move 1 (Distance.int (-3)) = (sample, none)) :=
  ⟨(claim_C7_distance_guard sample 1).1,
   by decide,
   (claim_C7_distance_guard sample 1).2 (-3) (by decide)⟩

/-- C10: `move` with an integer distance that is zero or negative returns
successfully without looking the rover up: even for an id absent from the
mapping it raises no `RoverNotFound` and leaves all state unchanged. -/
theorem claim_C10_nonpositive_move_skips_lookup (c : RoverController)
    (i : Nat) (n : Int) (_habsent : lookupRover c.rovers i = none)
    (hn : n ≤ 0) : c.move i (Distance.int n) = (c, none) := by
  have h : ¬ 0 < n := by omega
  simp [RoverController.move, h]

theorem claim_C10_witness :
    lookupRover sample.rovers 99 = none ∧ (0 : Int) ≤ 0 ∧
    sample.move 99 (Distance.int 0) = (sample, none) :=
  ⟨rfl, by decide,
   claim_C10_nonpositive_move_skips_lookup sample 99 0 rfl (by decide)⟩

/-- C6: for a positive integer distance `n`, `move` performs one validated
unit step and then behaves as `move` with distance `n - 1` on the state the
step committed; a failing step returns its error together with the state
reached so far, so previously committed steps of the same call remain
applied and the remaining steps are aborted. -/
theorem claim_C6_move_stepwise (c : RoverController) (i : Nat) (n : Int)
    (hn : 0 < n) :
    c.move i (Distance.int n) =
      (match c.move_step i with
       | (c', none) => c'.move i (Distance.int (n - 1))
       | (c', some e) => (c', some e)) := by
  have h1 : c.move i (Distance.int n) = moveLoop i c n.toNat := by
    simp [RoverController.move, hn]
  have h2 : n.toNat = (n - 1).toNat + 1 := by omega
  rw [h1, h2]
  unfold moveLoop
  cases hms : c.move_step i with
  | mk c' oe =>
    cases oe with
    | none =>
      simp only
      by_cases h3 : 0 < n - 1
      · simp [RoverController.move, h3]
      · have h4 : (n - 1).toNat = 0 := by omega
        simp [RoverController.move, h3, h4, moveLoop]
    | some e => simp

theorem claim_C6_witness :
    (0 : Int) < 1 ∧
    sample.move 1 (Distance.int 1) =
      (match sample.move_step 1 with
       | (c', none) => c'.move 1 (Distance.int (1 - 1))
       | (c', some e) => (c', some e)) :=
  ⟨by decide, claim_C6_move_stepwise sample 1 1 (by decide)⟩

/-- C1 counterexample: with a rover of id 1 already at `(1, 2, 0)`, adding
id 1 again at that (occupied) position fails with `PositionOccupied`, not
`DuplicateId`, because `add_rover` runs `check_position` before the
duplicate-id check. -/
theorem claim_C1_counterexample :
    (lookupRover sample.rovers 1).isSome = true ∧
    sample.add_rover 1 (1, 2, 0) sampleHeading
      = (sample, some Err.positionOccupied) ∧
    (sample.add_rover 1 (1, 2, 0) sampleHeading).2 ≠ some Err.duplicateId := by
  refine ⟨rfl, by decide, by decide⟩

/-- C1 amended: `add_rover` with a duplicate id always fails and never
mutates state, but the position checks run first: it fails with the
`check_position` error (`PositionOccupied` or `OutOfBounds`) when the
supplied position is occupied or out of bounds, and with `DuplicateId`
when the position check passes. -/
theorem claim_C1_duplicate_id (c : RoverController) (i : Nat) (p : Position)
    (hd : Heading) (h : (lookupRover c.rovers i).isSome = true) :
    c.add_rover i p hd
      = (c, some ((c.check_position p).getD Err.duplicateId)) := by
  unfold RoverController.add_rover
  cases hcp : c.check_position p with
  | some e => rfl
  | none =>
    have hfalse : (lookupRover c.rovers i).isNone = false := by
      cases hl : lookupRover c.rovers i
      · rw [hl] at h
        simp at h
      · rfl
    simp [hfalse]

theorem claim_C1_witness :
    (lookupRover sample.rovers 1).isSome = true ∧
    sample.add_rover 1 (4, 4, 0) sampleHeading
      = (sample, some ((sample.check_position (4, 4, 0)).getD Err.duplicateId)) :=
  ⟨rfl, claim_C1_duplicate_id sample 1 (4, 4, 0) sampleHeading rfl⟩

/-- C2 counterexample: turning an absent id with a delta that is not a
multiple of `pi/2` fails with `NonOrthogonalTurn`, not `RoverNotFound`,
because `turn` tests orthogonality before looking the rover up. -/
theorem claim_C2_counterexample :
    lookupRover sample.rovers 2 = none ∧
    (sample.turn 2 ⟨0, 1⟩ ⟨0, 0⟩).2 = some Err.nonOrthogonalTurn ∧
    (sample.turn 2 ⟨0, 1⟩ ⟨0, 0⟩).2 ≠ some Err.roverNotFound := by
  refine ⟨rfl, by decide, by decide⟩

/-- C2 amended: `turn` on an absent id fails and leaves the state
unchanged, but the orthogonality test runs first: it fails with
`RoverNotFound` only when both deltas are exact multiples of `pi/2`, and
with `NonOrthogonalTurn` otherwise. -/
theorem claim_C2_turn_absent (c : RoverController) (i : Nat) (az z : Angle)
    (h : lookupRover c.rovers i = none) :
    c.turn i az z =
      (c, some (if az.isMultipleOfHalfPi && z.isMultipleOfHalfPi then
                  Err.roverNotFound else Err.nonOrthogonalTurn)) := by
  unfold RoverController.turn
  by_cases horth : az.isMultipleOfHalfPi && z.isMultipleOfHalfPi
  · simp [horth, h]
  · simp [horth]

theorem claim_C2_witness :
    lookupRover sample.rovers 2 = none ∧
    sample.turn 2 ⟨1, 0⟩ ⟨0, 0⟩ =
      (sample, some (if (Angle.mk 1 0).isMultipleOfHalfPi
                        && (Angle.mk 0 0).isMultipleOfHalfPi then
                       Err.roverNotFound else Err.nonOrthogonalTurn)) :=
  ⟨rfl, claim_C2_turn_absent sample 2 ⟨1, 0⟩ ⟨0, 0⟩ rfl⟩

/-- C3 counterexample: with a heading whose direction vector truncates to
`(0, 0, 0)`, `move` with positive distance is not a silent no-op: the
candidate position equals the rover's own current position, which
`is_empty` counts as occupied, so the call raises `PositionOccupied`. -/
theorem claim_C3_counterexample :
    direction offAxisHeading.1 offAxisHeading.2 = (0, 0, 0) ∧
    (offAxis.move 1 (Distance.int 1)).2 = some Err.positionOccupied ∧
    (offAxis.move 1 (Distance.int 1)).2 ≠ none := by
  refine ⟨by decide, by decide, by decide⟩

/-- C3 amended: for every rover whose heading truncates to the zero
direction vector, `move` with a positive integer distance fails with
`PositionOccupied` on its first step (the candidate position is the
rover's own current position, which counts as occupied) and leaves the
whole state unchanged. -/
theorem claim_C3_zero_direction_move (c : RoverController) (i : Nat)
    (r : Rover) (n : Int) (hr : lookupRover c.rovers i = some r)
    (hd : direction r.heading.1 r.heading.2 = (0, 0, 0)) (hn : 0 < n) :
    c.move i (Distance.int n) = (c, some Err.positionOccupied) := by
  have hmem := lookupRover_mem c.rovers i r hr
  have hself : r.position ∈ c.positions :=
    List.mem_map.mpr ⟨(i, r), hmem, rfl⟩
  have hemp : c.is_empty r.position = false := by
    simp [RoverController.is_empty, hself]
  have hstep : c.move_step i = (c, some Err.positionOccupied) := by
    unfold RoverController.move_step
    rw [hr]
    simp only [hd, add_zero, Prod.mk.eta]
    rw [check_position_occupied c r.position hemp]
  have h2 : n.toNat = (n.toNat - 1) + 1 := by omega
  simp only [RoverController.move, hn, if_true]
  rw [h2]
  unfold moveLoop
  rw [hstep]

theorem claim_C3_witness :
    lookupRover offAxis.rovers 1 = some ⟨(2, 2, 0), offAxisHeading⟩ ∧
    direction offAxisHeading.1 offAxisHeading.2 = (0, 0, 0) ∧
    (0 : Int) < 2 ∧
    offAxis.move 1 (Distance.int 2) = (offAxis, some Err.positionOccupied) :=
  ⟨rfl, by decide, by decide,
   claim_C3_zero_direction_move offAxis 1 ⟨(2, 2, 0), offAxisHeading⟩ 2
     rfl (by decide) (by decide)⟩

/-- C4 counterexample: a pair of 3-tuples containing a non-integer
component is accepted by the vertices setter (and hence by construction),
contradicting the claim that it is rejected with `InvalidBoundingBox`. -/
theorem claim_C4_counterexample :
    controller_init_check badBox = none ∧
    set_vertices_check badBox = none ∧
    set_vertices_check badBox ≠ some Err.invalidBoundingBox := by
  refine ⟨rfl, rfl, by decide⟩

/-- C4 amended: construction and the vertices setter fail with
`InvalidBoundingBox` for exactly the arguments that are not a 2-tuple of
two 3-tuples; the component types inside the 3-tuples are not examined, so
3-tuples containing non-integer components are accepted. -/
theorem claim_C4_shape_check (v : Py) :
    (set_vertices_check v = none ↔
      ∃ a b, v = Py.tup [a, b] ∧
        a.isTupleOfLen 3 = true ∧ b.isTupleOfLen 3 = true) ∧
    (set_vertices_check v = none ∨
      set_vertices_check v = some Err.invalidBoundingBox) ∧
    controller_init_check v = set_vertices_check v := by
  refine ⟨⟨?_, ?_⟩, ?_, rfl⟩
  · intro h
    cases v with
    | intv n => simp [set_vertices_check] at h
    | floatv x => simp [set_vertices_check] at h
    | other => simp [set_vertices_check] at h
    | tup l =>
      match l with
      | [] => simp [set_vertices_check] at h
      | [a] => simp [set_vertices_check] at h
      | a :: b :: cc :: rest => simp [set_vertices_check] at h
      | [a, b] =>
        refine ⟨a, b, rfl, ?_⟩
        by_cases ha : a.isTupleOfLen 3 <;> by_cases hb : b.isTupleOfLen 3 <;>
          simp [set_vertices_check, ha, hb] at h ⊢
  · rintro ⟨a, b, rfl, ha, hb⟩
    simp [set_vertices_check, ha, hb]
  · cases v with
    | intv n => right; rfl
    | floatv x => right; rfl
    | other => right; rfl
    | tup l =>
      match l with
      | [] => right; rfl
      | [a] => right; rfl
      | a :: b :: cc :: rest => right; rfl
      | [a, b] =>
        by_cases ha : a.isTupleOfLen 3 <;> by_cases hb : b.isTupleOfLen 3
        · left; simp [set_vertices_check, ha, hb]
        · right; simp [set_vertices_check, ha, hb]
        · right; simp [set_vertices_check, ha, hb]
        · right; simp [set_vertices_check, ha, hb]

theorem turn_present (c : RoverController) (i : Nat) (az z : Angle)
    (r : Rover) (haz : az.isMultipleOfHalfPi = true)
    (hz : z.isMultipleOfHalfPi = true)
    (h : lookupRover c.rovers i = some r) :
    (c.turn i az z).2 = none ∧
    lookupRover (c.turn i az z).1.rovers i =
      some ⟨r.position, (r.heading.1.add az, r.heading.2.add z)⟩ := by
  unfold RoverController.turn
  simp only [haz, hz, Bool.and_self, if_true, h]
  exact ⟨trivial, lookupRover_updateRover c.rovers i _ (by rw [h]; rfl)⟩

/-- C8: for an existing rover, `turn` fails with `NonOrthogonalTurn` and
leaves the whole state (hence the heading) unchanged unless both deltas
are exact multiples of `pi/2`; with exact multiples the heading is updated
by componentwise addition with no normalization, so four turns by
`pi/2` azimuth leave the azimuth increased by `2*pi` (four quarter-turn
units), a value different from the original azimuth rather than wrapped
back to it. -/
theorem claim_C8_turn_exactness (c : RoverController) (i : Nat)
    (daz dz : Angle) (r : Rover) (h : lookupRover c.rovers i = some r) :
    (¬(daz.isMultipleOfHalfPi = true ∧ dz.isMultipleOfHalfPi = true) →
      c.turn i daz dz = (c, some Err.nonOrthogonalTurn)) ∧
    (daz.isMultipleOfHalfPi = true → dz.isMultipleOfHalfPi = true →
      (c.turn i daz dz).2 = none ∧
      lookupRover (c.turn i daz dz).1.rovers i =
        some ⟨r.position, (r.heading.1.add daz, r.heading.2.add dz)⟩) ∧
    (lookupRover (turn4azimuth c i).rovers i =
      some ⟨r.position, (⟨r.heading.1.q + 4, r.heading.1.r⟩, r.heading.2)⟩ ∧
    (⟨r.heading.1.q + 4, r.heading.1.r⟩ : Angle) ≠ r.heading.1) := by
  refine ⟨?_, ?_, ?_, ?_⟩
  · intro hno
    have hfalse : (daz.isMultipleOfHalfPi && dz.isMultipleOfHalfPi) = false := by
      cases hbz : daz.isMultipleOfHalfPi <;> cases hbz2 : dz.isMultipleOfHalfPi <;>
        simp_all
    unfold RoverController.turn
    simp [hfalse]
  · intro haz hz
    exact turn_present c i daz dz r haz hz h
  · have t1 := turn_present c i halfPiAngle zeroAngle r rfl rfl h
    have t2 := turn_present _ i halfPiAngle zeroAngle _ rfl rfl t1.2
    have t3 := turn_present _ i halfPiAngle zeroAngle _ rfl rfl t2.2
    have t4 := turn_present _ i halfPiAngle zeroAngle _ rfl rfl t3.2
    have hfinal := t4.2
    have key1 : (((r.heading.1.add halfPiAngle).add halfPiAngle).add
        halfPiAngle).add halfPiAngle
        = (⟨r.heading.1.q + 4, r.heading.1.r⟩ : Angle) := by
      simp only [Angle.add, halfPiAngle, Angle.mk.injEq]
      constructor <;> ring
    have key2 : (((r.heading.2.add zeroAngle).add zeroAngle).add
        zeroAngle).add zeroAngle = r.heading.2 := by
      simp only [Angle.add, zeroAngle, add_zero]
    unfold turn4azimuth
    rw [hfinal]
    show some (⟨r.position,
        ((((r.heading.1.add halfPiAngle).add halfPiAngle).add
            halfPiAngle).add halfPiAngle,
         (((r.heading.2.add zeroAngle).add zeroAngle).add
            zeroAngle).add zeroAngle)⟩ : Rover) = _
    rw [key1, key2]
  · intro heq
    have hq : r.heading.1.q + 4 = r.heading.1.q := congrArg Angle.q heq
    linarith

theorem claim_C8_witness :
    lookupRover sample.rovers 1 = some ⟨(1, 2, 0), sampleHeading⟩ ∧
    ((¬(halfPiAngle.isMultipleOfHalfPi = true ∧
          zeroAngle.isMultipleOfHalfPi = true) →
        sample.turn 1 halfPiAngle zeroAngle
          = (sample, some Err.nonOrthogonalTurn)) ∧
     (halfPiAngle.isMultipleOfHalfPi = true →
        zeroAngle.isMultipleOfHalfPi = true →
        (sample.turn 1 halfPiAngle zeroAngle).2 = none ∧
        lookupRover (sample.turn 1 halfPiAngle zeroAngle).1.rovers 1 =
          some ⟨(1, 2, 0),
            (sampleHeading.1.add halfPiAngle, sampleHeading.2.add zeroAngle)⟩) ∧
     (lookupRover (turn4azimuth sample 1).rovers 1 =
        some ⟨(1, 2, 0),
          (⟨sampleHeading.1.q + 4, sampleHeading.1.r⟩, sampleHeading.2)⟩ ∧
      (⟨sampleHeading.1.q + 4, sampleHeading.1.r⟩ : Angle) ≠ sampleHeading.1)) :=
  ⟨rfl, claim_C8_turn_exactness sample 1 halfPiAngle zeroAngle
    ⟨(1, 2, 0), sampleHeading⟩ rfl⟩
